import Mathlib

/-!
Verification of `misc/abstract_search.py` (jmm-cal): a shallow embedding of the
catalog loader, the interactive filter-and-select loop, the disk-backed
abstract cache, and the curses rendering steps, together with theorems about
their behaviour.

Strings are modelled as `List Char`; the terminal is modelled as a character
grid of known dimensions; the filesystem cache is modelled as an association
list from file names to file contents.
-/

set_option autoImplicit false

namespace AbstractSearch

/-- Character strings, modelled as lists of characters. -/
abbrev Str := List Char

/-- Model of Python `str.lower()`: lowercase every character. -/
def lowerStr (s : Str) : Str := s.map Char.toLower

/-- Helper for the Python substring test: `strStarts sub s` is true when `sub`
is an initial segment of `s`. -/
def strStarts : Str → Str → Bool
  | [], _ => true
  | _ :: _, [] => false
  | a :: as, b :: bs => a == b && strStarts as bs

/-- Model of the Python substring test `sub in s`. -/
def strIn (sub : Str) : Str → Bool
  | [] => sub.isEmpty
  | c :: rest => strStarts sub (c :: rest) || strIn sub rest

/-- Filtering of the item list by the current search text
(source `abstract_search.py` lines 121-128): when `search_text` is non-empty,
keep the items whose lowercased title contains the lowercased search text as a
substring; when it is empty, the filtered view is the whole item list. -/
def filtered_items (items : List Str) (search_text : Str) : List Str :=
  if search_text ≠ [] then
    items.filter (fun item => strIn (lowerStr search_text) (lowerStr item))
  else
    items

/-- Mutable state of the search loop (source lines 113-116): the search text,
the selected index, and the terminal dimensions last read from `getmaxyx`. -/
structure UIState where
  search_text : Str
  selected_index : Nat
  max_y : Nat
  max_x : Nat
deriving DecidableEq, Repr

/-- Input key events dispatched by the loop (source lines 185-211). -/
inductive Key where
  | esc
  | up
  | down
  | enter
  | backspace
  | resize (y x : Nat)
  | printable (c : Char)
deriving DecidableEq, Repr

/-- Clamp of the selected index against the current filtered view (source
lines 130-135): `min(sel, len - 1)` then `max(·, 0)` when the view is
non-empty (the second step is the identity on `Nat`), and `0` when the view is
empty. -/
def clampIndex (fi : List Str) (sel : Nat) : Nat :=
  if fi ≠ [] then min sel (fi.length - 1) else 0

/-- Top-of-loop normalisation of the state: recompute the filtered view from
the current search text and clamp the selected index against it. -/
def normalize (items : List Str) (s : UIState) : UIState :=
  { s with selected_index := clampIndex (filtered_items items s.search_text) s.selected_index }

/-- Key dispatch of the loop body (source lines 185-211) for the
state-mutating keys. `up` decrements the selected index when positive; `down`
increments it when strictly below the last index of the current filtered view;
`backspace` drops the last character of the search text (`search_text[:-1]`,
a no-op on the empty text) and resets the selection; a printable character is
appended to the search text and resets the selection; `resize` re-reads the
terminal dimensions and nothing else. `esc` and `enter` do not mutate this
state here (they are handled by the loop driver below). -/
def handle_key (items : List Str) (s : UIState) (k : Key) : UIState :=
  let fi := filtered_items items s.search_text
  match k with
  | .up => if s.selected_index > 0 then { s with selected_index := s.selected_index - 1 } else s
  | .down =>
      if fi ≠ [] ∧ s.selected_index < fi.length - 1 then
        { s with selected_index := s.selected_index + 1 }
      else s
  | .backspace => { s with search_text := s.search_text.dropLast, selected_index := 0 }
  | .printable c => { s with search_text := s.search_text ++ [c], selected_index := 0 }
  | .resize y x => { s with max_y := y, max_x := x }
  | .enter => s
  | .esc => s

/-- One observable transition of the loop state: the key dispatch followed by
the clamp performed at the top of the next loop iteration, which is the state
the next render sees. -/
def step (items : List Str) (s : UIState) (k : Key) : UIState :=
  normalize items (handle_key items s k)

/-- Iterated transitions over a list of key events. -/
def runKeys (items : List Str) (s : UIState) (ks : List Key) : UIState :=
  ks.foldl (step items) s

/-- Initial loop state (source lines 113-116): empty search text, selection 0,
and the initial terminal dimensions. -/
def initState (y x : Nat) : UIState :=
  { search_text := [], selected_index := 0, max_y := y, max_x := x }

/-- Selection invariant: the selected index is a valid index into the current
filtered view, and 0 when that view is empty. -/
def selInvariant (items : List Str) (s : UIState) : Prop :=
  (filtered_items items s.search_text = [] → s.selected_index = 0)
  ∧ (filtered_items items s.search_text ≠ [] →
      s.selected_index < (filtered_items items s.search_text).length)

/-- The move and query-edit keys, the event alphabet of claim C3. -/
def isNavKey : Key → Bool
  | .up => true
  | .down => true
  | .backspace => true
  | .printable _ => true
  | _ => false

/-- A record of the parsed agenda file: its title and, when the record carries
one, its `presno` lookup key. All other JSON fields of a record are
passthrough and never read by the program. -/
structure Record where
  title : Str
  presno : Option Str
deriving DecidableEq, Repr

/-- Model of Python dict insertion `d[k] = v` on an association list: if the
key is already present, overwrite its value in place (keeping the key's
original position); otherwise append the new pair at the end. -/
def dictInsert {α : Type} : List (Str × α) → Str → α → List (Str × α)
  | [], k, v => [(k, v)]
  | p :: rest, k, v => if p.1 = k then (k, v) :: rest else p :: dictInsert rest k v

/-- Model of Python dict lookup `d[k]` on an association list. -/
def dictGet {α : Type} : List (Str × α) → Str → Option α
  | [], _ => none
  | p :: rest, k => if p.1 = k then some p.2 else dictGet rest k

/-- Model of Python `dict(pairs)`: insert the pairs left to right into an
initially empty dict, so a later pair with an already-seen key overwrites the
earlier value. -/
def dictOfPairs {α : Type} (ps : List (Str × α)) : List (Str × α) :=
  ps.foldl (fun d p => dictInsert d p.1 p.2) []

/-- Model of Python `list(d.keys())`: the keys in insertion order. -/
def dictKeys {α : Type} (d : List (Str × α)) : List Str :=
  d.map Prod.fst

/-- Records of the raw input sequence that carry the `presno` lookup key
(source line 104: `filter(lambda o: "presno" in o, object)`). -/
def keyedRecords (recs : List Record) : List Record :=
  recs.filter (fun o => o.presno.isSome)

/-- The title → record mapping built at load time (source line 105:
`dict(zip(map(lambda o: o["title"], filtered), filtered))`). -/
def jmmKv (recs : List Record) : List (Str × Record) :=
  dictOfPairs ((keyedRecords recs).map (fun r => (r.title, r)))

/-- Possible shapes of the catalog input file as seen by `main` (source lines
101-102): the file can be missing, present but not valid JSON, or a parsed
sequence of records. -/
inductive LoadInput where
  | missingFile
  | invalidJson
  | parsed (recs : List Record)

/-- Failures of the catalog load phase: `open` raises `FileNotFoundError`
when the file is missing, `json.load` raises `JSONDecodeError` on invalid
data. -/
inductive LoadErr where
  | fileMissing
  | jsonDecodeError
deriving DecidableEq, Repr

/-- Model of the catalog load phase of `main` (source lines 101-107): fail if
the file is missing or not valid JSON; otherwise keep only the records that
carry a `presno` key, build the title → record dict, and take the searchable
item list to be the dict's keys. -/
def loadCatalog : LoadInput → Except LoadErr (List Str × List (Str × Record))
  | .missingFile => .error .fileMissing
  | .invalidJson => .error .jsonDecodeError
  | .parsed recs => .ok (dictKeys (jmmKv recs), jmmKv recs)

/-- Failures a remote fetch can raise: transport errors from `urlopen` and
parse errors from `json.loads` (source lines 83-85). -/
inductive FetchErr where
  | urlError (code : Nat)
  | jsonDecodeError
deriving DecidableEq, Repr

/-- A JSON object response, modelled as an association list from field names
to string values; the only field the program ever reads is `RawAbstract`. -/
abbrev JsonObj := List (Str × Str)

/-- Field presence test and access (`"RawAbstract" in data` /
`data["RawAbstract"]`, source lines 87-91). -/
def jsonGet (data : JsonObj) (field : Str) : Option Str :=
  dictGet data field

/-- State of the cache directory: whether the directory itself exists, and the
files inside it (file name ↦ contents). -/
structure FS where
  cacheDirExists : Bool
  files : List (Str × Str)
deriving DecidableEq, Repr

/-- Existence test plus read of a cache file (source lines 77-80). -/
def fsRead (fs : FS) (name : Str) : Option Str :=
  dictGet fs.files name

/-- File write (source lines 88-89): creates or overwrites one file inside
the cache directory; the directory itself is untouched. -/
def fsWrite (fs : FS) (name text : Str) : FS :=
  { fs with files := dictInsert fs.files name text }

/-- Cache file name for a key (source line 77): `{id}_abstract.txt`. -/
def cacheFileName (id : Str) : Str :=
  id ++ "_abstract.txt".toList

/-- The fixed sentinel returned when the response lacks the abstract field
(source line 93). -/
def abstractNotFound : Str :=
  "Abstract not found.".toList

/-- Name of the one response field the program reads (source lines 87-91). -/
def rawAbstractField : Str :=
  "RawAbstract".toList

/-- Model of `lookup_abstract` (source lines 75-97). If the cache file for the
key exists, return its contents without touching the remote service.
Otherwise call the remote service: on a transport/parse failure the exception
is re-raised unchanged (lines 95-97); on success, if the response carries
`RawAbstract`, write the cache file and return the text; otherwise return the
sentinel and write nothing. The result carries the text, the filesystem after
the call, and whether the remote service was called. -/
def lookup_abstract (remote : Str → Except FetchErr JsonObj) (fs : FS) (id : Str) :
    Except FetchErr (Str × FS × Bool) :=
  match fsRead fs (cacheFileName id) with
  | some text => .ok (text, fs, false)
  | none =>
    match remote id with
    | .error e => .error e
    | .ok data =>
      match jsonGet data rawAbstractField with
      | some t => .ok (t, fsWrite fs (cacheFileName id) t, true)
      | none => .ok (abstractNotFound, fs, true)

/-- Errors that can escape a loop iteration: an uncaught fetch exception from
`lookup_abstract` (line 197 sits in no try/except), or a `KeyError` from the
dict accesses `jmm_kv[selected_item]['presno']`. -/
inductive LoopErr where
  | fetch (e : FetchErr)
  | keyError
deriving DecidableEq, Repr

/-- Outcome of one loop iteration: continue; continue after showing a popup
(which consumes one further key, line 73); exit on ESC; or crash on an
uncaught exception. -/
inductive StepOut where
  | next (s : UIState) (fs : FS)
  | nextPopup (s : UIState) (fs : FS) (shown : Str)
  | exit (s : UIState) (fs : FS)
  | crash (e : LoopErr)
deriving DecidableEq, Repr

/-- One iteration of the interactive loop (source lines 118-211): normalise
the state (recompute the filtered view and clamp the selection, lines
121-135), then dispatch on the key. ESC exits. Enter on a non-empty view
resolves the selected record's key and calls `lookup_abstract`; its result is
shown in the popup; an exception from the lookup is not caught anywhere in
`main`, so it escapes the loop. All other keys go through `handle_key`. The
clamp guarantees the selected index is in range, so `getD`'s default is never
used. -/
def loopStep (remote : Str → Except FetchErr JsonObj) (items : List Str)
    (kv : List (Str × Record)) (fs : FS) (s : UIState) (k : Key) : StepOut :=
  let s := normalize items s
  match k with
  | .esc => .exit s fs
  | .enter =>
    let fi := filtered_items items s.search_text
    if fi ≠ [] then
      let selected_item := fi.getD s.selected_index []
      match dictGet kv selected_item with
      | none => .crash .keyError
      | some r =>
        match r.presno with
        | none => .crash .keyError
        | some pid =>
          match lookup_abstract remote fs pid with
          | .error e => .crash (.fetch e)
          | .ok (text, fs', _) => .nextPopup s fs' text
    else .next s fs
  | k => .next (handle_key items s k) fs

/-- Final outcome of a loop run over a finite key list. -/
inductive RunResult where
  | exited (s : UIState) (fs : FS)
  | ranOut (s : UIState) (fs : FS)
  | crashed (e : LoopErr)
deriving DecidableEq, Repr

/-- The interactive loop driven by a finite list of key events. A popup
consumes the key following the activating Enter (its `getch`, line 73). When
the key list runs out the loop is still alive, waiting for input. -/
def runLoop (remote : Str → Except FetchErr JsonObj) (items : List Str)
    (kv : List (Str × Record)) : FS → UIState → List Key → RunResult
  | fs, s, [] => .ranOut s fs
  | fs, s, k :: rest =>
    match loopStep remote items kv fs s k with
    | .exit s' fs' => .exited s' fs'
    | .crash e => .crashed e
    | .next s' fs' => runLoop remote items kv fs' s' rest
    | .nextPopup s' fs' _ =>
      match rest with
      | [] => .ranOut s' fs'
      | _ :: rest' => runLoop remote items kv fs' s' rest'

/-- Model of the whole program run (`main` under `curses.wrapper`, source
lines 99-219): the catalog load runs first and any load failure aborts the
process before the interactive loop starts; otherwise the loop runs on the
loaded catalog. -/
def mainProgram (input : LoadInput) (remote : Str → Except FetchErr JsonObj)
    (fs : FS) (y x : Nat) (keys : List Key) : Except LoadErr RunResult :=
  match loadCatalog input with
  | .error e => .error e
  | .ok (items, kv) => .ok (runLoop remote items kv fs (initState y x) keys)

/-- Failure of the module-level assertion. -/
inductive AssertErr where
  | assertionError
deriving DecidableEq, Repr

/-- Model of module import (source lines 13-15): the module asserts that the
cache directory already exists and refuses to run otherwise; nothing in the
program ever creates it. -/
def moduleInit (fs : FS) : Except AssertErr Unit :=
  if fs.cacheDirExists then .ok () else .error .assertionError

/-- Result of a curses drawing call: it either succeeds or raises
`curses.error`. -/
inductive RErr where
  | cursesError
deriving DecidableEq, Repr

/-- Model of `window.addstr(y, x, s)` on a window of height `h` and width `w`
(in cells): the call raises `curses.error` when the start position lies
outside the window or when the string, wrapping at the right margin, would run
past the window's last cell; otherwise it draws and succeeds. -/
def addstrCheck (h w y x : Int) (len : Nat) : Except RErr Unit :=
  if 0 ≤ y ∧ y < h ∧ 0 ≤ x ∧ x < w ∧ y * w + x + len ≤ h * w then .ok ()
  else .error .cursesError

/-- Model of `curses.newwin(h, w, y, x)` on a screen of `maxY` rows and
`maxX` columns: fails when the requested window does not fit on the screen. -/
def newwinCheck (maxY maxX h w y x : Int) : Except RErr Unit :=
  if 0 < h ∧ 0 < w ∧ 0 ≤ y ∧ 0 ≤ x ∧ y + h ≤ maxY ∧ x + w ≤ maxX then .ok ()
  else .error .cursesError

/-- Model of the Python slice `l[:n]` for an integer `n`: the first `n`
elements when `n ≥ 0`, and all but the last `-n` elements when `n < 0`. -/
def pySlice {α : Type} (l : List α) (n : Int) : List α :=
  if 0 ≤ n then l.take n.toNat else l.take (l.length - (-n).toNat)

/-- Whitespace splitter used by the wrap model. -/
def splitWordsAux : Str → Str → List Str
  | [], cur => if cur = [] then [] else [cur.reverse]
  | c :: rest, cur =>
      if c = ' ' ∨ c = '\n' ∨ c = '\t' then
        if cur = [] then splitWordsAux rest [] else cur.reverse :: splitWordsAux rest []
      else splitWordsAux rest (c :: cur)

/-- Whitespace-separated words of a string. -/
def splitWords (s : Str) : List Str := splitWordsAux s []

/-- Break one word into chunks of at most `width` characters (the
`break_long_words` behaviour of the wrap). -/
def chunkWord (width : Nat) : Str → List Str
  | [] => []
  | c :: rest =>
      if width ≤ 1 then [c] :: chunkWord width rest
      else (c :: rest).take width :: chunkWord width ((c :: rest).drop width)
termination_by s => s.length
decreasing_by
  · simp
  · simp
    omega

/-- Greedy line filling: pack the words into lines of at most `width`
characters, separating words on a line by single spaces. -/
def greedyFill (width : Nat) : List Str → Str → List Str
  | [], cur => if cur = [] then [] else [cur]
  | w :: ws, cur =>
      if cur = [] then greedyFill width ws w
      else if cur.length + 1 + w.length ≤ width then
        greedyFill width ws (cur ++ [' '] ++ w)
      else cur :: greedyFill width ws w

/-- Model of Python `textwrap.wrap(message, width)` with default settings
(an external library call at source line 25): split the text into
whitespace-separated words and pack them greedily into lines of at most
`width` characters, breaking words longer than a line. Whitespace-only text
yields no lines. The program only calls it with a positive width. -/
def pyWrap (message : Str) (width : Int) : List Str :=
  if width ≤ 0 then []
  else greedyFill width.toNat ((splitWords message).flatMap (chunkWord width.toNat)) []

/-- Largest line length of a list of lines (`max(len(line) for line in ...)`,
source line 34, on a non-empty list). -/
def maxLen : List Str → Nat
  | [] => 0
  | s :: rest => max s.length (maxLen rest)

/-- The popup's item lines (source lines 23-31): the wrapped message followed
by one blank line. -/
def popupItems (max_x : Nat) (message : Str) : List Str :=
  pyWrap message ((max_x : Int) - 12) ++ [[]]

/-- The popup width (source lines 34-38): content width plus borders, capped
at the screen width minus 4. -/
def popupWidth (max_x : Nat) (title message : Str) : Int :=
  min ((maxLen (title :: popupItems max_x message) : Int) + 6) ((max_x : Int) - 4)

/-- The popup height (source lines 35-39): item count plus borders, capped at
the screen height minus 4. -/
def popupHeight (max_y max_x : Nat) (message : Str) : Int :=
  min (((popupItems max_x message).length : Int) + 6) ((max_y : Int) - 4)

/-- The popup body loop (source lines 59-65): draw each item line at the
current row while it is above the footer area, truncated to the popup width
(`item[:popup_width - 6]` when longer); the row counter advances only when a
line is drawn. -/
def drawPopupItems (h w : Int) : Int → List Str → Except RErr Unit
  | _, [] => .ok ()
  | line, item :: rest =>
      if line < h - 2 then
        (addstrCheck h w line 3
            (if (item.length : Int) > w - 6 then (pySlice item (w - 6)).length
             else item.length)).bind fun _ =>
          drawPopupItems h w (line + 1) rest
      else drawPopupItems h w line rest

/-- Model of `show_popup`'s drawing sequence (source lines 17-73): create the
centred popup window, draw the title centred at row 1, the separator at row 2,
the item lines from row 4, and the footer two rows above the bottom. None of
these calls is wrapped in a handler in the source, so the first
`curses.error` raised propagates out of `show_popup`. -/
def show_popup (max_y max_x : Nat) (title message : Str) : Except RErr Unit :=
  let items := popupItems max_x message
  let w := popupWidth max_x title message
  let h := popupHeight max_y max_x message
  let start_y := ((max_y : Int) - h) / 2
  let start_x := ((max_x : Int) - w) / 2
  (newwinCheck (max_y : Int) (max_x : Int) h w start_y start_x).bind fun _ =>
  (addstrCheck h w 1 ((w - (title.length : Int)) / 2) title.length).bind fun _ =>
  (addstrCheck h w 2 1 (w - 2).toNat).bind fun _ =>
  (drawPopupItems h w 4 items).bind fun _ =>
  addstrCheck h w (h - 2) ((w - 25) / 2) "Press any key to continue".length

/-- The slice of the filtered items that fits the viewport (source lines
151-152): `filtered_items[:max_y - 7]`, a Python slice on an integer that can
be negative on very short terminals. -/
def display_items (max_y : Int) (fi : List Str) : List Str :=
  pySlice fi (max_y - 7)

/-- The main render's result-list loop (source lines 154-163), returning the
rows and lengths actually drawn: each item is drawn at row `6 + idx`, column
2, behind a two-character marker; on `curses.error` the loop breaks. -/
def drawItems (max_y max_x : Int) : Int → List Str → List (Int × Nat)
  | _, [] => []
  | idx, item :: rest =>
      match addstrCheck max_y max_x (6 + idx) 2 (2 + item.length) with
      | .ok _ => (6 + idx, 2 + item.length) :: drawItems max_y max_x (idx + 1) rest
      | .error _ => []

/-- The same loop as an exception-propagating computation, making the
`try/except curses.error: break` of source lines 155-163 explicit: each draw
is attempted and a raised `curses.error` is caught and ends the loop. -/
def drawItemsChecked (max_y max_x : Int) : Int → List Str → Except RErr (List (Int × Nat))
  | _, [] => .ok []
  | idx, item :: rest =>
      match addstrCheck max_y max_x (6 + idx) 2 (2 + item.length) with
      | .ok _ =>
          (drawItemsChecked max_y max_x (idx + 1) rest).map
            (fun l => (6 + idx, 2 + item.length) :: l)
      | .error _ => .ok []

/-- A concrete remote service for witnesses: every key resolves to a response
carrying `RawAbstract` = "abc". -/
def remoteOk : Str → Except FetchErr JsonObj :=
  fun _ => .ok [(rawAbstractField, "abc".toList)]

/-- A concrete remote service that always fails with a transport error. -/
def remoteFail : Str → Except FetchErr JsonObj :=
  fun _ => .error (.urlError 500)

/-- A concrete remote service whose responses lack the text field. -/
def remoteNoField : Str → Except FetchErr JsonObj :=
  fun _ => .ok []

/-- An existing, empty cache directory. -/
def emptyFS : FS := { cacheDirExists := true, files := [] }

/-- A 100-character selected title, as arises from the JMM agenda. -/
def longTitle : Str := List.replicate 100 'T'

instance (items : List Str) (s : UIState) : Decidable (selInvariant items s) := by
  unfold selInvariant
  infer_instance

/-- The empty string is a substring of every string. -/
theorem strIn_nil (s : Str) : strIn [] s = true := by
  cases s <;> simp [strIn, strStarts]

/-- Normalised states satisfy the selection invariant. -/
theorem normalize_selInvariant (items : List Str) (s : UIState) :
    selInvariant items (normalize items s) := by
  unfold selInvariant normalize clampIndex
  constructor
  · intro h
    simp only [h]
    simp
  · intro h
    have hlen : 0 < (filtered_items items s.search_text).length :=
      List.length_pos.mpr h
    simp only [if_pos h]
    omega

/-- Any step lands in a state satisfying the selection invariant. -/
theorem step_selInvariant (items : List Str) (s : UIState) (k : Key) :
    selInvariant items (step items s k) :=
  normalize_selInvariant items (handle_key items s k)

/-- Claim C1: the filtered view computed by the search loop is exactly the
subsequence of the catalog whose titles contain the query case-insensitively,
in the catalog's original relative order, and when the query is empty the
filtered view is the full catalog. -/
theorem filtered_view_spec (items : List Str) (q : Str) :
    filtered_items items q
        = items.filter (fun item => strIn (lowerStr q) (lowerStr item))
    ∧ List.Sublist (filtered_items items q) items
    ∧ (q = [] → filtered_items items q = items) := by
  refine ⟨?_, ?_, fun hq => by simp [filtered_items, hq]⟩
  · by_cases hq : q = []
    · subst hq
      simp only [filtered_items, ne_eq, not_true_eq_false, if_false]
      exact (List.filter_eq_self.mpr fun a _ => by
        simpa [lowerStr] using strIn_nil (lowerStr a)).symm
    · simp [filtered_items, hq]
  · unfold filtered_items
    split
    · exact List.filter_sublist items
    · exact List.Sublist.refl items

/-- Claim C3: after any sequence of move-up, move-down and query-change
events, the selected index is a valid index into the current filtered view,
and 0 whenever that view is empty. The run starts from the initial state as
normalised at the top of the first loop iteration. -/
theorem sel_index_invariant (items : List Str) (y x : Nat) (ks : List Key)
    (_hks : ∀ k ∈ ks, isNavKey k = true) :
    selInvariant items (runKeys items (normalize items (initState y x)) ks) := by
  induction ks using List.reverseRecOn with
  | nil => exact normalize_selInvariant items (initState y x)
  | append_singleton ks k _ =>
      unfold runKeys
      rw [List.foldl_append]
      exact step_selInvariant items _ k

/-- Witness for C3 at a concrete catalog and key sequence. -/
theorem sel_index_invariant_witness :
    (∀ k ∈ [Key.printable 't', Key.down, Key.up, Key.backspace], isNavKey k = true)
    ∧ selInvariant ["Knot Theory".toList, "Graph Coloring".toList]
        (runKeys ["Knot Theory".toList, "Graph Coloring".toList]
          (normalize ["Knot Theory".toList, "Graph Coloring".toList] (initState 24 80))
          [Key.printable 't', Key.down, Key.up, Key.backspace]) :=
  ⟨by decide,
   sel_index_invariant ["Knot Theory".toList, "Graph Coloring".toList] 24 80
     [Key.printable 't', Key.down, Key.up, Key.backspace] (by decide)⟩

/-- Claim C9: a resize event only re-reads the terminal dimensions; it leaves
the search text and the selected index unchanged (for any state satisfying the
selection invariant, as every reachable state does). -/
theorem resize_frame (items : List Str) (s : UIState) (y x : Nat)
    (h : selInvariant items s) :
    (step items s (.resize y x)).search_text = s.search_text
    ∧ (step items s (.resize y x)).selected_index = s.selected_index
    ∧ (step items s (.resize y x)).max_y = y
    ∧ (step items s (.resize y x)).max_x = x := by
  obtain ⟨h0, hlt⟩ := h
  unfold step handle_key normalize clampIndex
  refine ⟨rfl, ?_, rfl, rfl⟩
  simp only
  by_cases hfi : filtered_items items s.search_text = []
  · simp [hfi, h0 hfi]
  · have := hlt hfi
    simp only [ne_eq, hfi, not_false_eq_true, if_true]
    omega

/-- Witness for C9 at a concrete state satisfying the invariant. -/
theorem resize_frame_witness :
    selInvariant ["Knot Theory".toList] (initState 24 80)
    ∧ ((step ["Knot Theory".toList] (initState 24 80) (.resize 30 100)).search_text
          = (initState 24 80).search_text
      ∧ (step ["Knot Theory".toList] (initState 24 80) (.resize 30 100)).selected_index
          = (initState 24 80).selected_index
      ∧ (step ["Knot Theory".toList] (initState 24 80) (.resize 30 100)).max_y = 30
      ∧ (step ["Knot Theory".toList] (initState 24 80) (.resize 30 100)).max_x = 100) :=
  ⟨by decide, resize_frame ["Knot Theory".toList] (initState 24 80) 30 100 (by decide)⟩

/-- Dict lookup after dict insertion: the inserted key maps to the new value,
every other key is unaffected. -/
theorem dictGet_dictInsert {α : Type} (d : List (Str × α)) (k : Str) (v : α) (k' : Str) :
    dictGet (dictInsert d k v) k' = if k' = k then some v else dictGet d k' := by
  induction d with
  | nil =>
      rcases eq_or_ne k' k with h | h
      · subst h; simp [dictInsert, dictGet]
      · simp [dictInsert, dictGet, h, Ne.symm h]
  | cons p rest ih =>
      by_cases hp : p.1 = k
      · rw [dictInsert, if_pos hp]
        rcases eq_or_ne k' k with h | h
        · subst h; simp [dictGet]
        · simp [dictGet, hp, h, Ne.symm h]
      · rw [dictInsert, if_neg hp]
        rcases eq_or_ne k' k with h | h
        · subst h
          simp [dictGet, ih, hp]
        · simp [dictGet, ih, h]

/-- Dict construction from a pair list keeps, for every key, the value of the
last pair carrying that key. -/
theorem dictGet_foldl_insert {α : Type} (ps : List (Str × α)) (d : List (Str × α)) (k : Str) :
    dictGet (ps.foldl (fun d p => dictInsert d p.1 p.2) d) k
      = ((ps.reverse.find? (fun p => decide (p.1 = k))).map Prod.snd).or (dictGet d k) := by
  induction ps generalizing d with
  | nil => simp
  | cons p rest ih =>
      rw [List.foldl_cons, ih, List.reverse_cons, List.find?_append]
      cases hf : rest.reverse.find? (fun p => decide (p.1 = k)) with
      | some x => simp
      | none =>
          simp only [Option.map_none', Option.none_or]
          rw [dictGet_dictInsert]
          rcases eq_or_ne p.1 k with h | h
          · rw [List.find?_cons_of_pos _ (by simp [h]), if_pos h.symm]
            simp
          · rw [List.find?_cons_of_neg _ (by simp [h]), if_neg (fun hh => h hh.symm)]
            simp

/-- Claim C8: the title → record dict built at load time maps every title to
the last keyed record of the input sequence carrying that title — duplicate
titles are resolved by last-write-wins key overwrite, with no other
deduplication or merging. -/
theorem duplicate_titles_last_write_wins (recs : List Record) (t : Str) :
    dictGet (jmmKv recs) t
      = (keyedRecords recs).reverse.find? (fun r => decide (r.title = t)) := by
  unfold jmmKv dictOfPairs
  rw [dictGet_foldl_insert, ← List.map_reverse, List.find?_map]
  cases hf : (keyedRecords recs).reverse.find? (fun r => decide (r.title = t)) with
  | none =>
      have : (fun (p : Str × Record) => decide (p.1 = t)) ∘ (fun r => (r.title, r))
          = fun r => decide (r.title = t) := rfl
      simp [this, hf, dictGet]
  | some r =>
      have : (fun (p : Str × Record) => decide (p.1 = t)) ∘ (fun r => (r.title, r))
          = fun r => decide (r.title = t) := rfl
      simp [this, hf, dictGet]

/-- Claim C7: a missing or unparsable catalog file makes the program abort
with the load error before the interactive loop runs, while a parsed record
sequence always loads, with exactly the records carrying a `presno` key in the
searchable set. -/
theorem load_failure_skips_loop (recs : List Record) (r : Record)
    (remote : Str → Except FetchErr JsonObj) (fs : FS) (y x : Nat) (keys : List Key) :
    mainProgram .missingFile remote fs y x keys = .error .fileMissing
    ∧ mainProgram .invalidJson remote fs y x keys = .error .jsonDecodeError
    ∧ loadCatalog (.parsed recs) = .ok (dictKeys (jmmKv recs), jmmKv recs)
    ∧ (r ∈ keyedRecords recs ↔ r ∈ recs ∧ r.presno.isSome = true) := by
  refine ⟨rfl, rfl, rfl, ?_⟩
  simp [keyedRecords, List.mem_filter]

/-- File reads after a file write: the written name returns the new text,
every other name is unaffected. -/
theorem fsRead_fsWrite (fs : FS) (name text name' : Str) :
    fsRead (fsWrite fs name text) name'
      = if name' = name then some text else fsRead fs name' :=
  dictGet_dictInsert fs.files name text name'

/-- Claim C4: cache round-trip. A cache miss followed by a successful remote
fetch carrying text `T` persists the entry and returns `T`; the subsequent
lookup for the same key returns exactly `T` with no remote call, whatever the
remote service now does; and in general, whenever a cache entry exists for a
key, lookup returns its stored text without a remote call. -/
theorem cache_round_trip (remote remote2 : Str → Except FetchErr JsonObj)
    (fs : FS) (id : Str) (data : JsonObj) (T : Str)
    (hmiss : fsRead fs (cacheFileName id) = none)
    (hfetch : remote id = .ok data)
    (hfield : jsonGet data rawAbstractField = some T) :
    lookup_abstract remote fs id = .ok (T, fsWrite fs (cacheFileName id) T, true)
    ∧ lookup_abstract remote2 (fsWrite fs (cacheFileName id) T) id
        = .ok (T, fsWrite fs (cacheFileName id) T, false)
    ∧ ∀ (fs' : FS) (t : Str), fsRead fs' (cacheFileName id) = some t →
        lookup_abstract remote2 fs' id = .ok (t, fs', false) := by
  have hgen : ∀ (fs' : FS) (t : Str), fsRead fs' (cacheFileName id) = some t →
      lookup_abstract remote2 fs' id = .ok (t, fs', false) := by
    intro fs' t h
    simp only [lookup_abstract, h]
  refine ⟨?_, ?_, hgen⟩
  · simp only [lookup_abstract, hmiss, hfetch, hfield]
  · exact hgen _ T (by rw [fsRead_fsWrite]; simp)

/-- Witness for C4: a concrete miss, fetch, and re-lookup. -/
theorem cache_round_trip_witness :
    (fsRead emptyFS (cacheFileName "1".toList) = none
      ∧ remoteOk "1".toList = .ok [(rawAbstractField, "abc".toList)]
      ∧ jsonGet [(rawAbstractField, "abc".toList)] rawAbstractField = some "abc".toList)
    ∧ (lookup_abstract remoteOk emptyFS "1".toList
          = .ok ("abc".toList, fsWrite emptyFS (cacheFileName "1".toList) "abc".toList, true)
      ∧ lookup_abstract remoteFail (fsWrite emptyFS (cacheFileName "1".toList) "abc".toList) "1".toList
          = .ok ("abc".toList, fsWrite emptyFS (cacheFileName "1".toList) "abc".toList, false)
      ∧ ∀ (fs' : FS) (t : Str), fsRead fs' (cacheFileName "1".toList) = some t →
          lookup_abstract remoteFail fs' "1".toList = .ok (t, fs', false)) :=
  ⟨⟨rfl, rfl, by decide⟩,
   cache_round_trip remoteOk remoteFail emptyFS "1".toList
     [(rawAbstractField, "abc".toList)] "abc".toList rfl rfl (by decide)⟩

/-- Claim C5: when the remote response lacks the text field, lookup returns
the fixed sentinel, leaves the filesystem unchanged (no cache entry), and a
subsequent lookup for the same key issues the remote call again — here made
visible by a second remote service whose failure surfaces. -/
theorem miss_without_text_field (remote remote2 : Str → Except FetchErr JsonObj)
    (fs : FS) (id : Str) (data : JsonObj) (e : FetchErr)
    (hmiss : fsRead fs (cacheFileName id) = none)
    (hfetch : remote id = .ok data)
    (hnofield : jsonGet data rawAbstractField = none)
    (hfail : remote2 id = .error e) :
    lookup_abstract remote fs id = .ok (abstractNotFound, fs, true)
    ∧ lookup_abstract remote2 fs id = .error e := by
  constructor
  · simp only [lookup_abstract, hmiss, hfetch, hnofield]
  · simp only [lookup_abstract, hmiss, hfail]

/-- Witness for C5: a concrete field-less response followed by a failing
retry. -/
theorem miss_without_text_field_witness :
    (fsRead emptyFS (cacheFileName "1".toList) = none
      ∧ remoteNoField "1".toList = .ok []
      ∧ jsonGet [] rawAbstractField = none
      ∧ remoteFail "1".toList = .error (.urlError 500))
    ∧ (lookup_abstract remoteNoField emptyFS "1".toList = .ok (abstractNotFound, emptyFS, true)
      ∧ lookup_abstract remoteFail emptyFS "1".toList = .error (.urlError 500)) :=
  ⟨⟨rfl, rfl, rfl, rfl⟩,
   miss_without_text_field remoteNoField remoteFail emptyFS "1".toList [] (.urlError 500)
     rfl rfl rfl rfl⟩

/-- Counterexample to claim C2: with an empty cache and a failing remote
service, pressing Enter on a selected item ends the loop run in a crash — the
fetch failure is not caught at the loop level, no inline message replaces the
overlay, and the loop does not continue in Browsing. -/
theorem lookup_failure_crashes_loop :
    runLoop remoteFail ["Knot Theory".toList]
        [("Knot Theory".toList, { title := "Knot Theory".toList, presno := some "1".toList })]
        emptyFS (initState 24 80) [Key.enter]
      = .crashed (.fetch (.urlError 500)) := by decide

/-- Claim C2 (amended): on any fetch/transport/parse failure,
`lookup_abstract` propagates the exception carrying the cause unchanged; but
the search loop has no handler for it, so pressing Enter on a selected,
uncached item makes the failure escape the loop and end the run, instead of
an inline message being shown and the loop continuing in Browsing. -/
theorem lookup_failure_propagates (remote : Str → Except FetchErr JsonObj)
    (items : List Str) (kv : List (Str × Record)) (fs : FS) (s : UIState)
    (id : Str) (r : Record) (e : FetchErr) (rest : List Key)
    (hmiss : fsRead fs (cacheFileName id) = none)
    (hfail : remote id = .error e)
    (hfi : filtered_items items (normalize items s).search_text ≠ [])
    (hrec : dictGet kv ((filtered_items items (normalize items s).search_text).getD
        (normalize items s).selected_index []) = some r)
    (hpres : r.presno = some id) :
    lookup_abstract remote fs id = .error e
    ∧ loopStep remote items kv fs s .enter = .crash (.fetch e)
    ∧ runLoop remote items kv fs s (Key.enter :: rest) = .crashed (.fetch e) := by
  have hlk : lookup_abstract remote fs id = .error e := by
    simp only [lookup_abstract, hmiss, hfail]
  have hstep : loopStep remote items kv fs s .enter = .crash (.fetch e) := by
    simp only [loopStep, if_pos hfi, hrec, hpres, hlk]
  refine ⟨hlk, hstep, ?_⟩
  simp only [runLoop, hstep]

/-- Witness for the amended C2 at a concrete catalog, state, and failing
remote. -/
theorem lookup_failure_propagates_witness :
    (fsRead emptyFS (cacheFileName "1".toList) = none
      ∧ remoteFail "1".toList = .error (.urlError 500)
      ∧ filtered_items ["Knot Theory".toList]
          (normalize ["Knot Theory".toList] (initState 24 80)).search_text ≠ []
      ∧ Record.presno { title := "Knot Theory".toList, presno := some "1".toList }
          = some "1".toList)
    ∧ (lookup_abstract remoteFail emptyFS "1".toList = .error (.urlError 500)
      ∧ loopStep remoteFail ["Knot Theory".toList]
          [("Knot Theory".toList, { title := "Knot Theory".toList, presno := some "1".toList })]
          emptyFS (initState 24 80) .enter = .crash (.fetch (.urlError 500))
      ∧ runLoop remoteFail ["Knot Theory".toList]
          [("Knot Theory".toList, { title := "Knot Theory".toList, presno := some "1".toList })]
          emptyFS (initState 24 80) [Key.enter] = .crashed (.fetch (.urlError 500))) :=
  ⟨⟨rfl, rfl, by decide, rfl⟩,
   lookup_failure_propagates remoteFail ["Knot Theory".toList]
     [("Knot Theory".toList, { title := "Knot Theory".toList, presno := some "1".toList })]
     emptyFS (initState 24 80) "1".toList
     { title := "Knot Theory".toList, presno := some "1".toList } (.urlError 500) []
     rfl rfl (by decide) (by decide) rfl⟩

/-- Claim C10: the module asserts at import time that the cache directory
already exists and refuses to run otherwise; a lookup never changes whether
the directory exists and at most adds one cache file inside it — the
directory itself is never created by the program. -/
theorem cache_dir_asserted_not_created (fs0 : FS)
    (remote : Str → Except FetchErr JsonObj) (fs fs' : FS)
    (id text : Str) (called : Bool)
    (h : lookup_abstract remote fs id = .ok (text, fs', called)) :
    (moduleInit fs0 = .ok () ↔ fs0.cacheDirExists = true)
    ∧ fs'.cacheDirExists = fs.cacheDirExists
    ∧ (fs'.files = fs.files ∨ fs'.files = dictInsert fs.files (cacheFileName id) text) := by
  refine ⟨?_, ?_⟩
  · cases h0 : fs0.cacheDirExists <;> simp [moduleInit, h0]
  · unfold lookup_abstract at h
    cases hc : fsRead fs (cacheFileName id) with
    | some t =>
        simp only [hc, Except.ok.injEq, Prod.mk.injEq] at h
        obtain ⟨-, h2, -⟩ := h
        subst h2
        exact ⟨rfl, Or.inl rfl⟩
    | none =>
        simp only [hc] at h
        cases hr : remote id with
        | error e => simp [hr] at h
        | ok data =>
            simp only [hr] at h
            cases hj : jsonGet data rawAbstractField with
            | some t =>
                simp only [hj, Except.ok.injEq, Prod.mk.injEq] at h
                obtain ⟨ht, h2, -⟩ := h
                subst h2
                subst ht
                exact ⟨rfl, Or.inr rfl⟩
            | none =>
                simp only [hj, Except.ok.injEq, Prod.mk.injEq] at h
                obtain ⟨-, h2, -⟩ := h
                subst h2
                exact ⟨rfl, Or.inl rfl⟩

/-- Witness for C10 at a concrete directory state and fetch. -/
theorem cache_dir_asserted_not_created_witness :
    lookup_abstract remoteOk emptyFS "1".toList
        = .ok ("abc".toList, fsWrite emptyFS (cacheFileName "1".toList) "abc".toList, true)
    ∧ ((moduleInit emptyFS = .ok () ↔ emptyFS.cacheDirExists = true)
      ∧ (fsWrite emptyFS (cacheFileName "1".toList) "abc".toList).cacheDirExists
          = emptyFS.cacheDirExists
      ∧ ((fsWrite emptyFS (cacheFileName "1".toList) "abc".toList).files = emptyFS.files
        ∨ (fsWrite emptyFS (cacheFileName "1".toList) "abc".toList).files
            = dictInsert emptyFS.files (cacheFileName "1".toList) "abc".toList)) :=
  ⟨rfl,
   cache_dir_asserted_not_created emptyFS remoteOk emptyFS
     (fsWrite emptyFS (cacheFileName "1".toList) "abc".toList) "1".toList "abc".toList true
     rfl⟩

/-- The guarded list-drawing loop never propagates an error: it returns
exactly the rows that `drawItems` draws, for every window size and content. -/
theorem drawItemsChecked_ok (my mx idx : Int) (fi : List Str) :
    drawItemsChecked my mx idx fi = .ok (drawItems my mx idx fi) := by
  induction fi generalizing idx with
  | nil => rfl
  | cons item rest ih =>
      cases h : addstrCheck my mx (6 + idx) 2 (2 + item.length) with
      | ok u => simp [drawItemsChecked, drawItems, h, ih, Except.map]
      | error e => simp [drawItemsChecked, drawItems, h]

/-- Counterexample to claim C6: on a standard 24×80 terminal, rendering the
detail overlay for a 100-character title puts the popup's centred title at a
negative column; the title `addstr` raises `curses.error`, and `show_popup`
has no handler, so the overflow propagates out of the render step instead of
the content being truncated. -/
theorem popup_title_overflow_concrete :
    show_popup 24 80 longTitle [] = .error .cursesError := rfl

/-- Claim C6 (amended): the result list rendering is guarded — the list is
cut to the viewport and every item draw catches `curses.error`, so no
overflow escapes it — and popup body lines are truncated to the popup width;
but the popup title write is neither truncated nor guarded: on any terminal
of at least 11 rows and 13 columns, a title wider than the screen width minus
4 makes the centred title column negative and the `curses.error` propagates
out of `show_popup`. -/
theorem render_overflow_partially_guarded (max_y max_x : Nat) (title message : Str)
    (hY : 11 ≤ max_y) (hX : 13 ≤ max_x)
    (hT : (max_x : Int) - 4 < (title.length : Int)) :
    show_popup max_y max_x title message = .error .cursesError
    ∧ ∀ (my mx idx : Int) (fi : List Str),
        drawItemsChecked my mx idx fi = .ok (drawItems my mx idx fi) := by
  refine ⟨?_, fun my mx idx fi => drawItemsChecked_ok my mx idx fi⟩
  have hle : (title.length : Int) ≤ (maxLen (title :: popupItems max_x message) : Int) := by
    have : title.length ≤ maxLen (title :: popupItems max_x message) :=
      le_max_left _ _
    omega
  have hw : popupWidth max_x title message = (max_x : Int) - 4 := by
    unfold popupWidth
    omega
  have hlen : 1 ≤ ((popupItems max_x message).length : Int) := by
    have : 0 < (popupItems max_x message).length := by
      unfold popupItems
      simp
    omega
  have hh7 : 7 ≤ popupHeight max_y max_x message
      ∧ popupHeight max_y max_x message ≤ (max_y : Int) - 4 := by
    unfold popupHeight
    omega
  have hnw : newwinCheck (max_y : Int) (max_x : Int)
      (popupHeight max_y max_x message) (popupWidth max_x title message)
      (((max_y : Int) - popupHeight max_y max_x message) / 2)
      (((max_x : Int) - popupWidth max_x title message) / 2) = .ok () := by
    unfold newwinCheck
    rw [if_pos]
    refine ⟨by omega, by omega, by omega, by omega, by omega, by omega⟩
  have hti : addstrCheck (popupHeight max_y max_x message)
      (popupWidth max_x title message) 1
      ((popupWidth max_x title message - (title.length : Int)) / 2) title.length
      = .error .cursesError := by
    unfold addstrCheck
    rw [if_neg]
    intro hc
    omega
  simp only [show_popup]
  rw [hnw, hti]
  rfl

/-- Witness for the amended C6 at a concrete terminal and title. -/
theorem render_overflow_partially_guarded_witness :
    ((11 : Nat) ≤ 24 ∧ (13 : Nat) ≤ 80 ∧ (80 : Int) - 4 < (longTitle.length : Int))
    ∧ (show_popup 24 80 longTitle [] = .error .cursesError
      ∧ ∀ (my mx idx : Int) (fi : List Str),
          drawItemsChecked my mx idx fi = .ok (drawItems my mx idx fi)) :=
  ⟨⟨by decide, by decide, by decide⟩,
   render_overflow_partially_guarded 24 80 longTitle []
     (by decide) (by decide) (by decide)⟩

end AbstractSearch
